import Mathlib

/-!
# The CNBImage reconciler (`pkg/reconciler/v1alpha1/cnbimage/cnbimage.go`)

A shallow embedding of `Reconciler.Reconcile`, `Reconciler.fetchLastBuild` and
`currentBuildNumber`.

* The listers, the clientset and the tracker are collaborators of the
  reconciler.  They are gathered in `Env`: one response function per operation.
  Within one `Reconcile` every operation is invoked at most once, on arguments
  fixed by the answers received before, so a response function of the arguments
  describes every behaviour of the collaborators that one run can observe.
* Every call made to a collaborator is recorded, in order, in the `trace` of
  the `Outcome`; "no call is issued" is a statement about that trace.
* `Status.BuildCounter` is a signed machine integer.  Its declaration is not
  part of this package, so its width in bits is the parameter `w` of the
  functions that compute with it; arithmetic on it wraps (`wrap`).
-/

namespace Kpack

/-! ## Machine integers -/

/-- Half of the modulus of a signed integer type of `w` bits: `2 ^ (w - 1)`. -/
def half (w : Nat) : Int := 2 ^ (w - 1)

/-- Least value of a signed integer type of `w` bits. -/
def minInt (w : Nat) : Int := - half w

/-- Greatest value of a signed integer type of `w` bits. -/
def maxInt (w : Nat) : Int := half w - 1

/-- Two's complement wrap-around of Go's `+` and `-` on a signed integer type
of `w` bits. -/
def wrap (w : Nat) (x : Int) : Int := (x + half w) % (2 * half w) - half w

/-- The value is representable in a signed integer type of `w` bits. -/
def inRange (w : Nat) (x : Int) : Prop := minInt w ≤ x ∧ x ≤ maxInt w

instance decidableInRange (w : Nat) (x : Int) : Decidable (inRange w x) :=
  inferInstanceAs (Decidable (minInt w ≤ x ∧ x ≤ maxInt w))

/-! ## Data model -/

/-- A Go `error` value.  `isNotFound` is what `errors.IsNotFound` answers on it. -/
structure Err where
  isNotFound : Bool
  msg : String
deriving DecidableEq, Repr

/-- `v1alpha1.CNBImageStatus`: the fields the reconciler reads or writes. -/
structure ImageStatus where
  LastBuildRef : String
  BuildCounter : Int
  ObservedGeneration : Int
deriving DecidableEq, Repr

/-- `v1alpha1.CNBImageSpec`: the field the reconciler reads. -/
structure ImageSpec where
  BuilderRef : String
deriving DecidableEq, Repr

/-- `v1alpha1.CNBImage`. -/
structure Image where
  Namespace : String
  Name : String
  Generation : Int
  Spec : ImageSpec
  Status : ImageStatus
deriving DecidableEq, Repr

/-- The labels of a Build at the two keys the reconciler queries:
`buildNumber` is the decimal integer that the value under
`v1alpha1.BuildNumberLabel` spells, of any size (`none` when the label is
missing or is not a decimal integer), `image` the value under
`v1alpha1.ImageLabel`. -/
structure Labels where
  buildNumber : Option Int
  image : Option String
deriving DecidableEq, Repr

/-- `v1alpha1.CNBBuild`: name, namespace, owner, labels and the running state. -/
structure Build where
  Namespace : String
  Name : String
  owner : Option String
  labels : Labels
  running : Bool
deriving DecidableEq, Repr

/-- `v1alpha1.CNBBuilder`. -/
structure Builder where
  Namespace : String
  Name : String
  Generation : Int
deriving DecidableEq, Repr

/-- The object reference handed to the tracker. -/
structure ObjectReference where
  Kind : String
  Namespace : String
  Name : String
deriving DecidableEq, Repr

/-- A label requirement as built by `labels.NewRequirement` in `fetchLastBuild`:
`buildNumberGreaterThan n` stands for
`(v1alpha1.BuildNumberLabel, selection.GreaterThan, [strconv.Itoa n])` and
`imageDoubleEquals s` for `(v1alpha1.ImageLabel, selection.DoubleEquals, [s])`. -/
inductive Requirement where
  | buildNumberGreaterThan (n : Int)
  | imageDoubleEquals (name : String)
deriving DecidableEq, Repr

/-- One call to a collaborator, with its arguments. -/
inductive Call where
  | getImage (ns name : String)
  | listBuilds (ns : String) (selector : List Requirement)
  | getBuilder (ns name : String)
  | track (ref : ObjectReference) (image : Image)
  | createBuild (ns : String) (build : Build)
  | updateStatus (ns : String) (image : Image)
deriving DecidableEq, Repr

/-- What `Reconcile` hands back to the work queue: `nil`, an error, or a nil
pointer dereference at `build.Name` (line 106) when `lastBuild` is nil and
`BuildNeeded` answered false. -/
inductive Result where
  | nil
  | error (e : Err)
  | nilDereference
deriving DecidableEq, Repr

/-- The calls issued by one run, in order, and its result. -/
structure Outcome where
  trace : List Call
  result : Result
deriving DecidableEq, Repr

/-- The collaborators of the reconciler. -/
structure Env where
  /-- The function `cache.SplitMetaNamespaceKey`. -/
  splitMetaNamespaceKey : String → Except Err (String × String)
  /-- The call `CNBImageLister.CNBImages(ns).Get(name)`. -/
  getImage : String → String → Except Err Image
  /-- The validation done by `labels.NewRequirement`: `some err` when the
  requirement is refused. -/
  validateRequirement : Requirement → Option Err
  /-- The call `CNBBuildLister.CNBBuilds(ns).List(selector)`. -/
  listBuilds : String → List Requirement → Except Err (List Build)
  /-- The call `CNBBuilderLister.CNBBuilders(ns).Get(name)`. -/
  getBuilder : String → String → Except Err Builder
  /-- The call `Tracker.Track(ref, image)`: `some err` on failure. -/
  track : ObjectReference → Image → Option Err
  /-- The method `image.BuildNeeded(lastBuild, builder)`, declared outside this
  package. -/
  BuildNeeded : Image → Option Build → Builder → Bool
  /-- The call `CNBClient.BuildV1alpha1().CNBBuilds(ns).Create(build)`. -/
  createBuild : String → Build → Except Err Build
  /-- The call `CNBClient.BuildV1alpha1().CNBImages(ns).UpdateStatus(image)`. -/
  updateStatus : String → Image → Except Err Image

/-! ## Methods of the API types that the reconciler calls -/

/-- Modelled from the spec: `CNBBuild.IsRunning` is declared in the API package,
not in this one.  A Build carries a running/terminal state; the method is called
on a nil `lastBuild` when no Build was selected, and the reconcile then goes on
to the decision engine, so an absent Build is not running. -/
def IsRunning : Option Build → Bool
  | none => false
  | some b => b.running

/-- Modelled from the spec: `CNBImage.CreateBuild` is declared in the API
package, not in this one.  The Build is constructed with build-number label
equal to the current `buildCounter`, image-name label equal to the Image's name,
owner the Image, in the Image's namespace; its name is generated by the store. -/
def CreateBuild (image : Image) (_builder : Builder) : Build :=
  { Namespace := image.Namespace
    Name := ""
    owner := some image.Name
    labels := { buildNumber := some image.Status.BuildCounter, image := some image.Name }
    running := false }

/-- Modelled from the spec: `CNBBuilder.Ref` is declared in the API package, not
in this one.  The reference names the Builder by kind, namespace and name. -/
def Builder.Ref (builder : Builder) : ObjectReference :=
  { Kind := "CNBBuilder", Namespace := builder.Namespace, Name := builder.Name }

/-! ## The package's functions -/

/-- The function `currentBuildNumber` (lines 142-148).  The subtraction is done
in the type of `BuildCounter` and wraps; the conversion to `int` keeps the
value. -/
def currentBuildNumber (w : Nat) (image : Image) : Int :=
  let buildNumber := wrap w (image.Status.BuildCounter - 1)
  if buildNumber < 0 then 0 else buildNumber

/-- The error of line 136:
`fmt.Errorf("warning: image %s status not up to date", image.Name)`. -/
def statusNotUpToDate (image : Image) : Err :=
  { isNotFound := false, msg := "warning: image " ++ image.Name ++ " status not up to date" }

/-- The label selector of line 128. -/
def lastBuildSelector (w : Nat) (image : Image) : List Requirement :=
  [Requirement.buildNumberGreaterThan (currentBuildNumber w image),
   Requirement.imageDoubleEquals image.Name]

/-- The method `Reconciler.fetchLastBuild` (lines 116-140): the calls issued and
the returned pair, `Except.ok none` being `(nil, nil)`. -/
def fetchLastBuild (w : Nat) (env : Env) (image : Image) :
    List Call × Except Err (Option Build) :=
  let currentBuildNumberReq := Requirement.buildNumberGreaterThan (currentBuildNumber w image)
  match env.validateRequirement currentBuildNumberReq with
  | some err => ([], Except.error err)
  | none =>
    let imageNameReq := Requirement.imageDoubleEquals image.Name
    match env.validateRequirement imageNameReq with
    | some err => ([], Except.error err)
    | none =>
      let selector := [currentBuildNumberReq, imageNameReq]
      match env.listBuilds image.Namespace selector with
      | Except.error err => ([Call.listBuilds image.Namespace selector], Except.error err)
      | Except.ok cnbBuilds =>
        match cnbBuilds with
        | [] => ([Call.listBuilds image.Namespace selector], Except.ok none)
        | first :: _ =>
          if cnbBuilds.length > 1 ∨ first.Name ≠ image.Status.LastBuildRef then
            ([Call.listBuilds image.Namespace selector], Except.error (statusNotUpToDate image))
          else
            ([Call.listBuilds image.Namespace selector], Except.ok (some first))

/-- The image after line 101: `BuildCounter = BuildCounter + 1`, wrapping. -/
def incrementBuildCounter (w : Nat) (image : Image) : Image :=
  { image with Status := { image.Status with BuildCounter := wrap w (image.Status.BuildCounter + 1) } }

/-- The image after lines 106-107. -/
def recordBuild (image : Image) (buildName : String) : Image :=
  { image with Status := { image.Status with
      LastBuildRef := buildName, ObservedGeneration := image.Generation } }

/-- Lines 106-113: record the build in the status and submit the status. -/
def finish (env : Env) (ns : String) (image : Image) (buildName : String)
    (calls : List Call) : Outcome :=
  let image := recordBuild image buildName
  match env.updateStatus ns image with
  | Except.error err => { trace := calls ++ [Call.updateStatus ns image], result := Result.error err }
  | Except.ok _ => { trace := calls ++ [Call.updateStatus ns image], result := Result.nil }

/-- The method `Reconciler.Reconcile` (lines 62-114). -/
def Reconcile (w : Nat) (env : Env) (key : String) : Outcome :=
  match env.splitMetaNamespaceKey key with
  | Except.error err => { trace := [], result := Result.error err }
  | Except.ok (ns, imageName) =>
    match env.getImage ns imageName with
    | Except.error err =>
      if err.isNotFound then
        { trace := [Call.getImage ns imageName], result := Result.nil }
      else
        { trace := [Call.getImage ns imageName], result := Result.error err }
    | Except.ok image =>
      match fetchLastBuild w env image with
      | (listed, Except.error err) =>
        { trace := Call.getImage ns imageName :: listed, result := Result.error err }
      | (listed, Except.ok lastBuild) =>
        if IsRunning lastBuild then
          { trace := Call.getImage ns imageName :: listed, result := Result.nil }
        else
          match env.getBuilder ns image.Spec.BuilderRef with
          | Except.error err =>
            { trace := Call.getImage ns imageName :: listed
                ++ [Call.getBuilder ns image.Spec.BuilderRef],
              result := Result.error err }
          | Except.ok builder =>
            let read := Call.getImage ns imageName :: listed
              ++ [Call.getBuilder ns image.Spec.BuilderRef, Call.track builder.Ref image]
            match env.track builder.Ref image with
            | some err => { trace := read, result := Result.error err }
            | none =>
              if env.BuildNeeded image lastBuild builder then
                let submitted := CreateBuild image builder
                match env.createBuild image.Namespace submitted with
                | Except.error err =>
                  { trace := read ++ [Call.createBuild image.Namespace submitted],
                    result := Result.error err }
                | Except.ok build =>
                  finish env ns (incrementBuildCounter w image) build.Name
                    (read ++ [Call.createBuild image.Namespace submitted])
              else
                match lastBuild with
                | none => { trace := read, result := Result.nilDereference }
                | some build => finish env ns image build.Name read

/-! ## A store of Builds behind the lister -/

/-- Whether a requirement holds of a Build's labels, as the label selector
evaluates it.  For `GreaterThan` the label's value and the requirement's value
are both parsed with `strconv.ParseInt(_, 10, 64)`: a value outside the 64-bit
range does not parse and the requirement does not match; otherwise the label
must be strictly above the requirement's value.  `DoubleEquals` needs the label
to be present and equal. -/
def Requirement.Matches (r : Requirement) (l : Labels) : Bool :=
  match r with
  | Requirement.buildNumberGreaterThan n =>
    match l.buildNumber with
    | some m => decide (inRange 64 m) && decide (inRange 64 n) && decide (n < m)
    | none => false
  | Requirement.imageDoubleEquals s => decide (l.image = some s)

/-- The answer of a Build lister that serves the Builds `builds`: those of the
namespace whose labels satisfy every requirement of the selector. -/
def listFromStore (builds : List Build) (ns : String) (selector : List Requirement) :
    List Build :=
  builds.filter (fun b => decide (b.Namespace = ns) && selector.all (fun r => r.Matches b.labels))

/-- The Build lister serves the Builds `builds`: it answers every query with
the Builds of the store that the query selects. -/
def Env.ListsFrom (env : Env) (builds : List Build) : Prop :=
  ∀ ns selector, env.listBuilds ns selector = Except.ok (listFromStore builds ns selector)

/-- Every requirement handed to `labels.NewRequirement` is accepted. -/
def Env.AcceptsRequirements (env : Env) : Prop :=
  ∀ r, env.validateRequirement r = none

/-! ## Concrete environments -/

/-- An Image `app` in namespace `ns` that references the Builder `builder`. -/
def appImage (lastBuildRef : String) (buildCounter : Int) : Image :=
  { Namespace := "ns", Name := "app", Generation := 1,
    Spec := { BuilderRef := "builder" },
    Status := { LastBuildRef := lastBuildRef, BuildCounter := buildCounter,
                ObservedGeneration := 0 } }

/-- A Build of the Image `app` in namespace `ns`. -/
def appBuild (name : String) (buildNumber : Int) (running : Bool) : Build :=
  { Namespace := "ns", Name := name, owner := some "app",
    labels := { buildNumber := some buildNumber, image := some "app" },
    running := running }

/-- The Builder `builder` in namespace `ns`. -/
def appBuilder : Builder := { Namespace := "ns", Name := "builder", Generation := 1 }

/-- A not-found error. -/
def notFoundErr : Err := { isNotFound := true, msg := "not found" }

/-- Some other error of a collaborator. -/
def otherErr (msg : String) : Err := { isNotFound := false, msg := msg }

/-- Collaborators that serve the Image `image` under the key `ns/app`, the
Builds `builds` and the Builder `builder`; every call succeeds, a created Build
is named `app-build-2`, and a build is needed exactly when none is selected. -/
def storeEnv (image : Image) (builds : List Build) : Env :=
  { splitMetaNamespaceKey := fun key =>
      if key = "ns/app" then Except.ok ("ns", "app") else Except.error (otherErr "unexpected key format")
    getImage := fun ns name =>
      if ns = "ns" ∧ name = "app" then Except.ok image else Except.error notFoundErr
    validateRequirement := fun _ => none
    listBuilds := fun ns selector => Except.ok (listFromStore builds ns selector)
    getBuilder := fun ns name =>
      if ns = "ns" ∧ name = "builder" then Except.ok appBuilder else Except.error notFoundErr
    track := fun _ _ => none
    BuildNeeded := fun _ lastBuild _ => lastBuild.isNone
    createBuild := fun _ build => Except.ok { build with Name := "app-build-2" }
    updateStatus := fun _ image => Except.ok image }

/-- An Image `app` whose status already records its generation. -/
def settledImage : Image :=
  { Namespace := "ns", Name := "app", Generation := 1,
    Spec := { BuilderRef := "builder" },
    Status := { LastBuildRef := "app-build-1", BuildCounter := 1, ObservedGeneration := 1 } }

/-- The collaborators of `storeEnv`, except that the store refuses to create a
Build. -/
def createRefusedEnv (image : Image) (builds : List Build) : Env :=
  { storeEnv image builds with
    createBuild := fun _ _ => Except.error (otherErr "create refused") }

/-- The collaborators of `storeEnv`, except that no Image is found. -/
def imageGoneEnv : Env :=
  { storeEnv settledImage [] with getImage := fun _ _ => Except.error notFoundErr }

/-! ## Reading a trace -/

/-- The call is a `Create` of a Build. -/
def Call.isCreateBuild : Call → Bool
  | Call.createBuild _ _ => true
  | _ => false

/-- The call is an `UpdateStatus` of an Image. -/
def Call.isUpdateStatus : Call → Bool
  | Call.updateStatus _ _ => true
  | _ => false

/-- The call is a `Get` of a Builder. -/
def Call.isGetBuilder : Call → Bool
  | Call.getBuilder _ _ => true
  | _ => false

/-- The call is a `Track` of the tracker. -/
def Call.isTrack : Call → Bool
  | Call.track _ _ => true
  | _ => false

/-- The position of a call's step in `Reconcile`: load the Image (0), select
the last Build (1), load the Builder (2), track it (3), create a Build (4),
update the status (5). -/
def Call.step : Call → Nat
  | Call.getImage _ _ => 0
  | Call.listBuilds _ _ => 1
  | Call.getBuilder _ _ => 2
  | Call.track _ _ => 3
  | Call.createBuild _ _ => 4
  | Call.updateStatus _ _ => 5

/-- The collaborator answers the call with the failure `e`; for the Image
lookup a not-found answer does not count as a failure. -/
def Env.Fails (env : Env) : Call → Err → Prop
  | Call.getImage ns name, e => env.getImage ns name = Except.error e ∧ e.isNotFound = false
  | Call.listBuilds ns selector, e => env.listBuilds ns selector = Except.error e
  | Call.getBuilder ns name, e => env.getBuilder ns name = Except.error e
  | Call.track ref image, e => env.track ref image = some e
  | Call.createBuild ns build, e => env.createBuild ns build = Except.error e
  | Call.updateStatus ns image, e => env.updateStatus ns image = Except.error e

/-! # Theorems -/

/-! ## Wrap-around arithmetic -/

theorem half_pos (w : Nat) : 0 < half w := by
  unfold half
  positivity

theorem wrap_of_inRange (w : Nat) (x : Int) (h : inRange w x) : wrap w x = x := by
  have hp := half_pos w
  obtain ⟨h1, h2⟩ := h
  unfold minInt at h1
  unfold maxInt at h2
  unfold wrap
  rw [Int.emod_eq_of_lt (by omega) (by omega)]
  omega

theorem wrap_bounds (w : Nat) (x : Int) : inRange w (wrap w x) := by
  have hp := half_pos w
  have h1 := Int.emod_nonneg (x + half w) (show (2 * half w) ≠ 0 by omega)
  have h2 := Int.emod_lt_of_pos (x + half w) (show 0 < 2 * half w by omega)
  unfold inRange minInt maxInt wrap
  constructor <;> omega

theorem wrap_min_sub_one (w : Nat) : wrap w (minInt w - 1) = maxInt w := by
  have hp := half_pos w
  unfold wrap minInt maxInt
  have : (-half w - 1 + half w) = -1 := by omega
  rw [this]
  have h2 : (-1 : Int) % (2 * half w) = 2 * half w - 1 := by
    have e : (-1 : Int) = (2 * half w - 1) + (2 * half w) * (-1) := by ring
    rw [e, Int.add_mul_emod_self_left]
    exact Int.emod_eq_of_lt (by omega) (by omega)
  rw [h2]
  omega

theorem wrap_max_add_one (w : Nat) : wrap w (maxInt w + 1) = minInt w := by
  have hp := half_pos w
  unfold wrap minInt maxInt
  have : (half w - 1 + 1 + half w) = 2 * half w := by omega
  rw [this]
  simp

theorem currentBuildNumber_of_gt_min (w : Nat) (image : Image)
    (hr : inRange w image.Status.BuildCounter) (hm : minInt w < image.Status.BuildCounter) :
    currentBuildNumber w image = max (image.Status.BuildCounter - 1) 0 := by
  have hw : wrap w (image.Status.BuildCounter - 1) = image.Status.BuildCounter - 1 := by
    apply wrap_of_inRange
    obtain ⟨h1, h2⟩ := hr
    constructor <;> omega
  unfold currentBuildNumber
  simp only [hw]
  split <;> omega

theorem currentBuildNumber_nonneg (w : Nat) (image : Image) :
    0 ≤ currentBuildNumber w image := by
  unfold currentBuildNumber
  simp only
  split <;> omega

/-! ## The Build selector -/

theorem fetchLastBuild_trace (w : Nat) (env : Env) (image : Image) :
    (fetchLastBuild w env image).1 = [] ∨
    (fetchLastBuild w env image).1
      = [Call.listBuilds image.Namespace (lastBuildSelector w image)] := by
  unfold fetchLastBuild lastBuildSelector
  simp only
  split
  · simp
  · split
    · simp
    · split
      · simp
      · split
        · simp
        · split <;> simp

theorem fetchLastBuild_of_list (w : Nat) (env : Env) (image : Image) (builds : List Build)
    (hv1 : env.validateRequirement
      (Requirement.buildNumberGreaterThan (currentBuildNumber w image)) = none)
    (hv2 : env.validateRequirement (Requirement.imageDoubleEquals image.Name) = none)
    (hl : env.listBuilds image.Namespace (lastBuildSelector w image) = Except.ok builds) :
    fetchLastBuild w env image =
      ([Call.listBuilds image.Namespace (lastBuildSelector w image)],
        match builds with
        | [] => Except.ok none
        | first :: rest =>
          if rest ≠ [] ∨ first.Name ≠ image.Status.LastBuildRef then
            Except.error (statusNotUpToDate image)
          else Except.ok (some first)) := by
  unfold lastBuildSelector at hl
  unfold fetchLastBuild lastBuildSelector
  simp only [hv1, hv2, hl]
  cases builds with
  | nil => rfl
  | cons first rest =>
    cases rest with
    | nil => by_cases hn : first.Name = image.Status.LastBuildRef <;> simp [hn]
    | cons second more => simp

theorem fetchLastBuild_some (w : Nat) (env : Env) (image : Image) (listed : List Call)
    (b : Build) (h : fetchLastBuild w env image = (listed, Except.ok (some b))) :
    listed = [Call.listBuilds image.Namespace (lastBuildSelector w image)] ∧
    b.Name = image.Status.LastBuildRef ∧
    env.listBuilds image.Namespace (lastBuildSelector w image) = Except.ok [b] := by
  unfold fetchLastBuild lastBuildSelector at *
  simp only at h
  split at h
  · simp at h
  · split at h
    · simp at h
    · split at h
      · simp at h
      · rename_i bs hbs
        split at h
        · simp at h
        · rename_i first rest
          split at h
          · simp at h
          · rename_i hc
            simp only [Prod.mk.injEq, Except.ok.injEq, Option.some.injEq] at h
            obtain ⟨h1, h2⟩ := h
            subst h2
            simp only [List.length_cons, gt_iff_lt, lt_add_iff_pos_left, List.length_pos,
              ne_eq, not_or, not_not] at hc
            obtain ⟨hc1, hc2⟩ := hc
            subst hc1
            exact ⟨h1.symm, hc2, hbs⟩

/-! ## The selector over a store of Builds -/

theorem eq_singleton_of_nodup {α : Type} (l : List α) (b : α) (hn : l.Nodup)
    (hall : ∀ x ∈ l, x = b) (hmem : b ∈ l) : l = [b] := by
  cases l with
  | nil => simp at hmem
  | cons x t =>
    have hx : x = b := hall x (by simp)
    subst hx
    cases t with
    | nil => rfl
    | cons y u =>
      have hy : y = x := hall y (by simp)
      subst hy
      simp at hn

theorem listFromStore_eq_nil (builds : List Build) (ns name : String) (n : Int)
    (h : ∀ b ∈ builds, b.Namespace = ns → b.labels.image = some name →
      ∃ m, b.labels.buildNumber = some m ∧ m ≤ n) :
    listFromStore builds ns
      [Requirement.buildNumberGreaterThan n, Requirement.imageDoubleEquals name] = [] := by
  unfold listFromStore
  rw [List.filter_eq_nil_iff]
  intro b hb
  by_cases h1 : b.Namespace = ns
  · by_cases h2 : b.labels.image = some name
    · obtain ⟨m, hm, hle⟩ := h b hb h1 h2
      simp [Requirement.Matches, hm, h1, h2]
      omega
    · simp [Requirement.Matches, h2]
  · simp [h1]

theorem listFromStore_eq_singleton (builds : List Build) (ns name : String) (n m : Int)
    (b : Build) (hn : builds.Nodup) (hmem : b ∈ builds) (hns : b.Namespace = ns)
    (himg : b.labels.image = some name) (hnum : b.labels.buildNumber = some m) (hlt : n < m)
    (hn64 : inRange 64 n) (hm64 : inRange 64 m)
    (honly : ∀ c ∈ builds, c.Namespace = ns → c.labels.image = some name → c = b) :
    listFromStore builds ns
      [Requirement.buildNumberGreaterThan n, Requirement.imageDoubleEquals name] = [b] := by
  unfold listFromStore
  apply eq_singleton_of_nodup
  · exact hn.filter _
  · intro x hx
    rw [List.mem_filter] at hx
    obtain ⟨hx1, hx2⟩ := hx
    simp only [List.all_cons, List.all_nil, Bool.and_true, Bool.and_eq_true,
      decide_eq_true_eq, Requirement.Matches] at hx2
    exact honly x hx1 hx2.1 hx2.2.2
  · rw [List.mem_filter]
    refine ⟨hmem, ?_⟩
    simp [Requirement.Matches, hns, himg, hnum, hlt, hn64, hm64]

theorem half_mono (w : Nat) (hw : w ≤ 64) : half w ≤ half 64 := by
  unfold half
  exact pow_le_pow_right₀ (by norm_num) (by omega)

theorem inRange_of_le (w : Nat) (x : Int) (hw : w ≤ 64) (h : inRange w x) : inRange 64 x := by
  have hm := half_mono w hw
  obtain ⟨h1, h2⟩ := h
  unfold minInt at h1
  unfold maxInt at h2
  unfold inRange minInt maxInt
  constructor <;> omega

theorem currentBuildNumber_of_pos (w : Nat) (image : Image)
    (hr : inRange w image.Status.BuildCounter) (h1 : 1 ≤ image.Status.BuildCounter) :
    currentBuildNumber w image = image.Status.BuildCounter - 1 := by
  have hp := half_pos w
  rw [currentBuildNumber_of_gt_min w image hr (by unfold minInt; omega)]
  omega

theorem fetchLastBuild_refused_or_accepted (w : Nat) (env : Env) (image : Image) :
    (∃ e, fetchLastBuild w env image = ([], Except.error e)) ∨
    (env.validateRequirement
        (Requirement.buildNumberGreaterThan (currentBuildNumber w image)) = none ∧
      env.validateRequirement (Requirement.imageDoubleEquals image.Name) = none) := by
  cases hv1 : env.validateRequirement
      (Requirement.buildNumberGreaterThan (currentBuildNumber w image)) with
  | some e =>
    left
    refine ⟨e, ?_⟩
    unfold fetchLastBuild
    simp [hv1]
  | none =>
    cases hv2 : env.validateRequirement (Requirement.imageDoubleEquals image.Name) with
    | some e =>
      left
      refine ⟨e, ?_⟩
      unfold fetchLastBuild
      simp [hv1, hv2]
    | none => exact Or.inr ⟨rfl, rfl⟩

theorem reconcile_of_selector_error (w : Nat) (env : Env) (key ns name : String)
    (image : Image) (e : Err)
    (hkey : env.splitMetaNamespaceKey key = Except.ok (ns, name))
    (himg : env.getImage ns name = Except.ok image)
    (hsel : (fetchLastBuild w env image).2 = Except.error e) :
    Reconcile w env key =
      { trace := Call.getImage ns name :: (fetchLastBuild w env image).1,
        result := Result.error e } := by
  unfold Reconcile
  simp only [hkey, himg]
  generalize fetchLastBuild w env image = fl at hsel
  obtain ⟨listed, res⟩ := fl
  simp only at hsel
  subst hsel
  rfl

theorem reconcile_of_running (w : Nat) (env : Env) (key ns name : String)
    (image : Image) (listed : List Call) (b : Build)
    (hkey : env.splitMetaNamespaceKey key = Except.ok (ns, name))
    (himg : env.getImage ns name = Except.ok image)
    (hsel : fetchLastBuild w env image = (listed, Except.ok (some b)))
    (hrun : IsRunning (some b) = true) :
    Reconcile w env key =
      { trace := [Call.getImage ns name,
                  Call.listBuilds image.Namespace (lastBuildSelector w image)],
        result := Result.nil } := by
  have hl := (fetchLastBuild_some w env image listed b hsel).1
  unfold Reconcile
  simp [hkey, himg, hsel, hrun, hl]

/-! ## Claims about the sequencer and the selector -/

/-- C9 (amended): `currentBuildNumber` is total; its result is never negative,
is 0 for `buildCounter` 0 and 1, equals `max (buildCounter - 1) 0` for every
Image whose `buildCounter` is above the least value of its integer type, and is
non-decreasing in `buildCounter` over those values. -/
theorem currentBuildNumber_clamped (w : Nat) (image image' : Image) :
    0 ≤ currentBuildNumber w image ∧
    (image.Status.BuildCounter = 0 ∨ image.Status.BuildCounter = 1 →
      currentBuildNumber w image = 0) ∧
    (inRange w image.Status.BuildCounter → minInt w < image.Status.BuildCounter →
      currentBuildNumber w image = max (image.Status.BuildCounter - 1) 0) ∧
    (inRange w image.Status.BuildCounter → inRange w image'.Status.BuildCounter →
      minInt w < image.Status.BuildCounter →
      image.Status.BuildCounter ≤ image'.Status.BuildCounter →
      currentBuildNumber w image ≤ currentBuildNumber w image') := by
  refine ⟨currentBuildNumber_nonneg w image, ?_, currentBuildNumber_of_gt_min w image, ?_⟩
  · have hp := half_pos w
    rintro (h | h)
    · have hw : wrap w (-1) = -1 := by
        apply wrap_of_inRange
        unfold inRange minInt maxInt
        constructor <;> omega
      unfold currentBuildNumber
      simp [h, hw]
    · have hw : wrap w 0 = 0 := by
        apply wrap_of_inRange
        unfold inRange minInt maxInt
        constructor <;> omega
      unfold currentBuildNumber
      simp [h, hw]
  · intro hr hr' hm hle
    rw [currentBuildNumber_of_gt_min w image hr hm,
      currentBuildNumber_of_gt_min w image' hr' (by omega)]
    omega

/-- C9, witness: 64-bit counters 5 and 7. -/
theorem currentBuildNumber_clamped_witness :
    currentBuildNumber 64 (appImage "" 5) = max ((appImage "" 5).Status.BuildCounter - 1) 0 ∧
    currentBuildNumber 64 (appImage "" 5) ≤ currentBuildNumber 64 (appImage "" 7) ∧
    currentBuildNumber 64 (appImage "" 1) = 0 :=
  ⟨(currentBuildNumber_clamped 64 (appImage "" 5) (appImage "" 7)).2.2.1
      (by decide) (by decide),
    (currentBuildNumber_clamped 64 (appImage "" 5) (appImage "" 7)).2.2.2
      (by decide) (by decide) (by decide) (by decide),
    (currentBuildNumber_clamped 64 (appImage "" 1) (appImage "" 1)).2.1 (Or.inr rfl)⟩

/-- C9, counterexample: at the least value of a 64-bit (and of a 32-bit) counter
the subtraction wraps, the result is the greatest value instead of
`max (buildCounter - 1) 0 = 0`, and it exceeds the result for the next counter
value. -/
theorem currentBuildNumber_min_counterexample :
    (currentBuildNumber 64 (appImage "" (-9223372036854775808)) = 9223372036854775807 ∧
      max ((appImage "" (-9223372036854775808)).Status.BuildCounter - 1) 0 = 0 ∧
      currentBuildNumber 64 (appImage "" (-9223372036854775807)) = 0) ∧
    (currentBuildNumber 32 (appImage "" (-2147483648)) = 2147483647 ∧
      max ((appImage "" (-2147483648)).Status.BuildCounter - 1) 0 = 0 ∧
      currentBuildNumber 32 (appImage "" (-2147483647)) = 0) := by
  decide

/-- C6 (amended): for every Image whose `buildCounter` is above the least value
of its integer type, when both requirements are accepted and the list for the
query (build-number above `max (buildCounter - 1) 0`, image-name equal to the
Image's name, in the Image's namespace) succeeds, `fetchLastBuild` issues that
one list call and returns absent without error on zero matches, the Build on a
single match named `status.lastBuildRef`, and an error exactly when there are
several matches or the single match has another name. -/
theorem fetchLastBuild_result_policy (w : Nat) (env : Env) (image : Image)
    (builds : List Build)
    (hr : inRange w image.Status.BuildCounter) (hm : minInt w < image.Status.BuildCounter)
    (hv1 : env.validateRequirement
      (Requirement.buildNumberGreaterThan (max (image.Status.BuildCounter - 1) 0)) = none)
    (hv2 : env.validateRequirement (Requirement.imageDoubleEquals image.Name) = none)
    (hl : env.listBuilds image.Namespace
      [Requirement.buildNumberGreaterThan (max (image.Status.BuildCounter - 1) 0),
       Requirement.imageDoubleEquals image.Name] = Except.ok builds) :
    (fetchLastBuild w env image).1 =
      [Call.listBuilds image.Namespace
        [Requirement.buildNumberGreaterThan (max (image.Status.BuildCounter - 1) 0),
         Requirement.imageDoubleEquals image.Name]] ∧
    (builds = [] → (fetchLastBuild w env image).2 = Except.ok none) ∧
    (∀ b, builds = [b] → b.Name = image.Status.LastBuildRef →
      (fetchLastBuild w env image).2 = Except.ok (some b)) ∧
    ((∃ e, (fetchLastBuild w env image).2 = Except.error e) ↔
      (1 < builds.length ∨ ∃ b, builds = [b] ∧ b.Name ≠ image.Status.LastBuildRef)) := by
  have hcur := currentBuildNumber_of_gt_min w image hr hm
  rw [← hcur] at hv1 hl ⊢
  have h := fetchLastBuild_of_list w env image builds hv1 hv2 hl
  rw [h]
  refine ⟨rfl, ?_, ?_, ?_⟩
  · intro hb
    subst hb
    rfl
  · intro b hb hn
    subst hb
    simp [hn]
  · cases builds with
    | nil => simp
    | cons first rest =>
      cases rest with
      | nil => by_cases hn : first.Name = image.Status.LastBuildRef <;> simp [hn]
      | cons second more => simp

/-- C6, witness: one matching Build named as `status.lastBuildRef` records. -/
theorem fetchLastBuild_result_policy_witness :
    (fetchLastBuild 64 (storeEnv (appImage "app-build-1" 1) [appBuild "app-build-1" 1 false])
      (appImage "app-build-1" 1)).2 = Except.ok (some (appBuild "app-build-1" 1 false)) :=
  (fetchLastBuild_result_policy 64
    (storeEnv (appImage "app-build-1" 1) [appBuild "app-build-1" 1 false])
    (appImage "app-build-1" 1) [appBuild "app-build-1" 1 false] (by decide) (by decide)
    rfl rfl rfl).2.2.1
    (appBuild "app-build-1" 1 false) rfl rfl

/-- C6, counterexample: with the counter at the least 64-bit (or 32-bit) value,
both requirements are accepted and the list for the query build-number above
`max (buildCounter - 1) 0 = 0` answers the single Build `app-build-1`, named as
`status.lastBuildRef` records; `fetchLastBuild` queries above the greatest value
instead and returns absent, not that Build. -/
theorem fetchLastBuild_min_counter_counterexample :
    ((storeEnv (appImage "app-build-1" (-9223372036854775808))
          [appBuild "app-build-1" 1 false]).listBuilds "ns"
        [Requirement.buildNumberGreaterThan
          (max ((appImage "app-build-1" (-9223372036854775808)).Status.BuildCounter - 1) 0),
         Requirement.imageDoubleEquals "app"]
        = Except.ok [appBuild "app-build-1" 1 false] ∧
      (appBuild "app-build-1" 1 false).Name
        = (appImage "app-build-1" (-9223372036854775808)).Status.LastBuildRef ∧
      fetchLastBuild 64
          (storeEnv (appImage "app-build-1" (-9223372036854775808))
            [appBuild "app-build-1" 1 false])
          (appImage "app-build-1" (-9223372036854775808))
        = ([Call.listBuilds "ns"
              [Requirement.buildNumberGreaterThan 9223372036854775807,
               Requirement.imageDoubleEquals "app"]],
           Except.ok none)) ∧
    ((storeEnv (appImage "app-build-1" (-2147483648))
          [appBuild "app-build-1" 1 false]).listBuilds "ns"
        [Requirement.buildNumberGreaterThan
          (max ((appImage "app-build-1" (-2147483648)).Status.BuildCounter - 1) 0),
         Requirement.imageDoubleEquals "app"]
        = Except.ok [appBuild "app-build-1" 1 false] ∧
      (appBuild "app-build-1" 1 false).Name
        = (appImage "app-build-1" (-2147483648)).Status.LastBuildRef ∧
      fetchLastBuild 32
          (storeEnv (appImage "app-build-1" (-2147483648)) [appBuild "app-build-1" 1 false])
          (appImage "app-build-1" (-2147483648))
        = ([Call.listBuilds "ns"
              [Requirement.buildNumberGreaterThan 2147483647,
               Requirement.imageDoubleEquals "app"]],
           Except.ok none)) :=
  ⟨⟨rfl, rfl, rfl⟩, ⟨rfl, rfl, rfl⟩⟩

/-! ## Claims about `Reconcile` -/

/-- C8: when the Image lookup reports not-found, `Reconcile` returns nil and the
lookup is the only call it issues: no list, no Builder lookup, no tracker
registration, no create and no status update. -/
theorem reconcile_image_not_found (w : Nat) (env : Env) (key ns name : String) (e : Err)
    (hkey : env.splitMetaNamespaceKey key = Except.ok (ns, name))
    (himg : env.getImage ns name = Except.error e)
    (hnf : e.isNotFound = true) :
    Reconcile w env key = { trace := [Call.getImage ns name], result := Result.nil } := by
  unfold Reconcile
  simp [hkey, himg, hnf]

/-- C8, witness: the key `ns/app` when the Image is gone. -/
theorem reconcile_image_not_found_witness :
    Reconcile 64 imageGoneEnv "ns/app"
      = { trace := [Call.getImage "ns" "app"], result := Result.nil } :=
  reconcile_image_not_found 64 imageGoneEnv "ns/app" "ns" "app" notFoundErr rfl rfl rfl

/-- C1: when `fetchLastBuild` returns a Build that is running, `Reconcile`
returns nil after the Image lookup and the list call; it issues no create, no
status update, no Builder lookup and no tracker registration. -/
theorem reconcile_running_build_skips (w : Nat) (env : Env) (key ns name : String)
    (image : Image) (listed : List Call) (b : Build)
    (hkey : env.splitMetaNamespaceKey key = Except.ok (ns, name))
    (himg : env.getImage ns name = Except.ok image)
    (hsel : fetchLastBuild w env image = (listed, Except.ok (some b)))
    (hrun : IsRunning (some b) = true) :
    Reconcile w env key =
      { trace := [Call.getImage ns name,
                  Call.listBuilds image.Namespace (lastBuildSelector w image)],
        result := Result.nil } ∧
    ∀ c ∈ (Reconcile w env key).trace,
      c.isCreateBuild = false ∧ c.isUpdateStatus = false ∧
      c.isGetBuilder = false ∧ c.isTrack = false := by
  have hR := reconcile_of_running w env key ns name image listed b hkey himg hsel hrun
  refine ⟨hR, ?_⟩
  rw [hR]
  intro c hc
  simp only [List.mem_cons, List.mem_singleton, List.not_mem_nil, or_false] at hc
  rcases hc with hc | hc <;> subst hc <;> simp [Call.isCreateBuild, Call.isUpdateStatus,
    Call.isGetBuilder, Call.isTrack]

/-- C1, witness: the Build `app-build-1` of `app` is selected and is running. -/
theorem reconcile_running_build_skips_witness :
    Reconcile 64 (storeEnv (appImage "app-build-1" 1) [appBuild "app-build-1" 1 true]) "ns/app"
      = { trace := [Call.getImage "ns" "app",
                    Call.listBuilds "ns" (lastBuildSelector 64 (appImage "app-build-1" 1))],
          result := Result.nil } :=
  (reconcile_running_build_skips 64
    (storeEnv (appImage "app-build-1" 1) [appBuild "app-build-1" 1 true]) "ns/app" "ns" "app"
    (appImage "app-build-1" 1)
    [Call.listBuilds "ns" (lastBuildSelector 64 (appImage "app-build-1" 1))]
    (appBuild "app-build-1" 1 true) rfl rfl rfl rfl).1

/-- C10: when the selector returns a Build that is not running and no build is
needed, the Image submitted to the status update is the loaded Image with
`status.observedGeneration` set to its generation; `status.buildCounter` and
`status.lastBuildRef` are those of the loaded Image. -/
theorem reconcile_reuse_submits_loaded_image (w : Nat) (env : Env) (key ns name : String)
    (image : Image) (listed : List Call) (b : Build) (builder : Builder)
    (hkey : env.splitMetaNamespaceKey key = Except.ok (ns, name))
    (himg : env.getImage ns name = Except.ok image)
    (hsel : fetchLastBuild w env image = (listed, Except.ok (some b)))
    (hrun : IsRunning (some b) = false)
    (hb : env.getBuilder ns image.Spec.BuilderRef = Except.ok builder)
    (ht : env.track builder.Ref image = none)
    (hneed : env.BuildNeeded image (some b) builder = false) :
    (Reconcile w env key).trace.filter Call.isUpdateStatus =
      [Call.updateStatus ns
        { image with Status :=
            { image.Status with ObservedGeneration := image.Generation } }] ∧
    ∀ ns' submitted, Call.updateStatus ns' submitted ∈ (Reconcile w env key).trace →
      submitted.Status.BuildCounter = image.Status.BuildCounter ∧
      submitted.Status.LastBuildRef = image.Status.LastBuildRef ∧
      submitted.Status.ObservedGeneration = image.Generation ∧
      submitted.Namespace = image.Namespace ∧ submitted.Name = image.Name ∧
      submitted.Generation = image.Generation ∧ submitted.Spec = image.Spec := by
  obtain ⟨hl, hn, -⟩ := fetchLastBuild_some w env image listed b hsel
  have hR : (Reconcile w env key).trace =
      [Call.getImage ns name, Call.listBuilds image.Namespace (lastBuildSelector w image),
       Call.getBuilder ns image.Spec.BuilderRef, Call.track builder.Ref image,
       Call.updateStatus ns
        { image with Status :=
            { image.Status with ObservedGeneration := image.Generation } }] := by
    unfold Reconcile
    simp only [hkey, himg, hsel, hrun, hb, ht, hneed, hl, finish, recordBuild, hn]
    cases env.updateStatus ns _ <;> simp
  rw [hR]
  refine ⟨by simp [Call.isUpdateStatus], ?_⟩
  intro ns' submitted hm
  simp at hm
  obtain ⟨-, hs⟩ := hm
  subst hs
  simp

/-- C10, witness: `app` with counter 1 and its finished Build `app-build-1`
selected; the status submitted differs from the loaded one in
`observedGeneration` only. -/
theorem reconcile_reuse_submits_loaded_image_witness :
    (Reconcile 64 (storeEnv (appImage "app-build-1" 1) [appBuild "app-build-1" 1 false])
        "ns/app").trace.filter Call.isUpdateStatus =
      [Call.updateStatus "ns"
        { appImage "app-build-1" 1 with
          Status := { (appImage "app-build-1" 1).Status with
            ObservedGeneration := (appImage "app-build-1" 1).Generation } }] :=
  (reconcile_reuse_submits_loaded_image 64
    (storeEnv (appImage "app-build-1" 1) [appBuild "app-build-1" 1 false]) "ns/app" "ns" "app"
    (appImage "app-build-1" 1)
    [Call.listBuilds "ns" (lastBuildSelector 64 (appImage "app-build-1" 1))]
    (appBuild "app-build-1" 1 false) appBuilder rfl rfl rfl rfl rfl rfl rfl).1

/-- C4 (amended): when the selector returns a Build that is not running, the
Builder loads, tracking succeeds and no build is needed, `Reconcile` issues no
create call and exactly one status update, and returns nil when that update
succeeds and the update's error otherwise. -/
theorem reconcile_reuse_writes_status_once (w : Nat) (env : Env) (key ns name : String)
    (image : Image) (listed : List Call) (b : Build) (builder : Builder)
    (hkey : env.splitMetaNamespaceKey key = Except.ok (ns, name))
    (himg : env.getImage ns name = Except.ok image)
    (hsel : fetchLastBuild w env image = (listed, Except.ok (some b)))
    (hrun : IsRunning (some b) = false)
    (hb : env.getBuilder ns image.Spec.BuilderRef = Except.ok builder)
    (ht : env.track builder.Ref image = none)
    (hneed : env.BuildNeeded image (some b) builder = false) :
    (Reconcile w env key).trace.filter Call.isCreateBuild = [] ∧
    ((Reconcile w env key).trace.filter Call.isUpdateStatus).length = 1 ∧
    (Reconcile w env key).result =
      (match env.updateStatus ns (recordBuild image b.Name) with
       | Except.ok _ => Result.nil
       | Except.error err => Result.error err) := by
  obtain ⟨hl, -, -⟩ := fetchLastBuild_some w env image listed b hsel
  unfold Reconcile
  simp only [hkey, himg, hsel, hrun, hb, ht, hneed, hl, finish]
  cases env.updateStatus ns (recordBuild image b.Name) <;>
    simp [Call.isCreateBuild, Call.isUpdateStatus]

/-- C4, witness: `app` with its finished Build `app-build-1` selected. -/
theorem reconcile_reuse_writes_status_once_witness :
    ((Reconcile 64 (storeEnv settledImage [appBuild "app-build-1" 1 false]) "ns/app").trace.filter
        Call.isUpdateStatus).length = 1 :=
  (reconcile_reuse_writes_status_once 64
    (storeEnv settledImage [appBuild "app-build-1" 1 false]) "ns/app" "ns" "app" settledImage
    [Call.listBuilds "ns" (lastBuildSelector 64 settledImage)]
    (appBuild "app-build-1" 1 false) appBuilder rfl rfl rfl rfl rfl rfl rfl).2.1

/-- C4, counterexample: the selector returns the finished Build `app-build-1`,
the Builder loads, tracking succeeds, no build is needed and the status already
records the generation; `Reconcile` still writes the status to the store. -/
theorem reconcile_reuse_counterexample :
    fetchLastBuild 64 (storeEnv settledImage [appBuild "app-build-1" 1 false]) settledImage
      = ([Call.listBuilds "ns" (lastBuildSelector 64 settledImage)],
         Except.ok (some (appBuild "app-build-1" 1 false))) ∧
    IsRunning (some (appBuild "app-build-1" 1 false)) = false ∧
    (storeEnv settledImage [appBuild "app-build-1" 1 false]).BuildNeeded settledImage
      (some (appBuild "app-build-1" 1 false)) appBuilder = false ∧
    Reconcile 64 (storeEnv settledImage [appBuild "app-build-1" 1 false]) "ns/app"
      = { trace := [Call.getImage "ns" "app",
                    Call.listBuilds "ns" (lastBuildSelector 64 settledImage),
                    Call.getBuilder "ns" "builder",
                    Call.track appBuilder.Ref settledImage,
                    Call.updateStatus "ns" settledImage],
          result := Result.nil } :=
  ⟨rfl, rfl, rfl, rfl⟩

/-- C2 (amended): when a build is needed and the create succeeds, `Reconcile`
issues exactly one create call, for the Build constructed from the loaded Image,
whose build-number label is the loaded `buildCounter`; the status then submitted
has `buildCounter` equal to the loaded value plus 1 wrapped to the counter's
integer type, which is the loaded value plus exactly 1 whenever the loaded value
is below the greatest value of that type. -/
theorem reconcile_create_increments_counter (w : Nat) (env : Env) (key ns name : String)
    (image : Image) (listed : List Call) (lastBuild : Option Build) (builder : Builder)
    (created : Build)
    (hkey : env.splitMetaNamespaceKey key = Except.ok (ns, name))
    (himg : env.getImage ns name = Except.ok image)
    (hsel : fetchLastBuild w env image = (listed, Except.ok lastBuild))
    (hrun : IsRunning lastBuild = false)
    (hb : env.getBuilder ns image.Spec.BuilderRef = Except.ok builder)
    (ht : env.track builder.Ref image = none)
    (hneed : env.BuildNeeded image lastBuild builder = true)
    (hcreate : env.createBuild image.Namespace (CreateBuild image builder)
      = Except.ok created) :
    (Reconcile w env key).trace.filter Call.isCreateBuild =
      [Call.createBuild image.Namespace (CreateBuild image builder)] ∧
    (CreateBuild image builder).labels.buildNumber = some image.Status.BuildCounter ∧
    (∃ submitted,
      (Reconcile w env key).trace.filter Call.isUpdateStatus
        = [Call.updateStatus ns submitted] ∧
      submitted.Status.BuildCounter = wrap w (image.Status.BuildCounter + 1) ∧
      (inRange w image.Status.BuildCounter → image.Status.BuildCounter < maxInt w →
        submitted.Status.BuildCounter = image.Status.BuildCounter + 1)) := by
  have hfilt1 : listed.filter Call.isCreateBuild = [] := by
    have h := fetchLastBuild_trace w env image
    rw [hsel] at h
    rcases h with h | h <;> simp at h <;> subst h <;> simp [Call.isCreateBuild]
  have hfilt2 : listed.filter Call.isUpdateStatus = [] := by
    have h := fetchLastBuild_trace w env image
    rw [hsel] at h
    rcases h with h | h <;> simp at h <;> subst h <;> simp [Call.isUpdateStatus]
  refine ⟨?_, rfl, recordBuild (incrementBuildCounter w image) created.Name, ?_, rfl, ?_⟩
  · unfold Reconcile
    simp only [hkey, himg, hsel, hrun, hb, ht, hneed, hcreate, finish]
    cases env.updateStatus ns _ <;>
      simp [List.filter_cons, List.filter_append, hfilt1, Call.isCreateBuild]
  · unfold Reconcile
    simp only [hkey, himg, hsel, hrun, hb, ht, hneed, hcreate, finish]
    cases env.updateStatus ns _ <;>
      simp [List.filter_cons, List.filter_append, hfilt2, Call.isUpdateStatus]
  · intro hr hlt
    show wrap w (image.Status.BuildCounter + 1) = image.Status.BuildCounter + 1
    apply wrap_of_inRange
    obtain ⟨h1, h2⟩ := hr
    constructor <;> omega

/-- C2, witness: the first build of `app`, counter 1, no Build in the store. -/
theorem reconcile_create_increments_counter_witness :
    (Reconcile 64 (storeEnv (appImage "" 1) []) "ns/app").trace.filter Call.isCreateBuild =
      [Call.createBuild "ns" (CreateBuild (appImage "" 1) appBuilder)] :=
  (reconcile_create_increments_counter 64 (storeEnv (appImage "" 1) []) "ns/app" "ns" "app"
    (appImage "" 1) [Call.listBuilds "ns" (lastBuildSelector 64 (appImage "" 1))] none
    appBuilder { CreateBuild (appImage "" 1) appBuilder with Name := "app-build-2" }
    rfl rfl rfl rfl rfl rfl rfl rfl).1

/-- C2, counterexample: with the counter at the greatest value of a 64-bit (or
32-bit) integer, a build is needed and the create succeeds, and the status
submitted carries the least value, not the loaded value plus 1. -/
theorem reconcile_create_overflow_counterexample :
    ((Reconcile 64 (storeEnv (appImage "" 9223372036854775807) []) "ns/app").trace.filter
        Call.isUpdateStatus
      = [Call.updateStatus "ns"
          { appImage "app-build-2" (-9223372036854775808) with
            Status := { LastBuildRef := "app-build-2", BuildCounter := -9223372036854775808,
                        ObservedGeneration := 1 } }] ∧
      (-9223372036854775808 : Int) ≠ 9223372036854775807 + 1) ∧
    ((Reconcile 32 (storeEnv (appImage "" 2147483647) []) "ns/app").trace.filter
        Call.isUpdateStatus
      = [Call.updateStatus "ns"
          { appImage "app-build-2" (-2147483648) with
            Status := { LastBuildRef := "app-build-2", BuildCounter := -2147483648,
                        ObservedGeneration := 1 } }] ∧
      (-2147483648 : Int) ≠ 2147483647 + 1) := by
  decide

/-- C3 (amended): for every Image with `buildCounter >= 1`, the counter's type
being of at most 64 bits, whose `lastBuildRef` names a Build of the store (which
holds each Build once), in the Image's namespace, with image-name label the
Image's name and build-number label a 64-bit integer strictly above
`buildCounter - 1`, that Build being the Image's only Build, if that Build is
running `Reconcile` issues no create call. -/
theorem reconcile_in_flight_no_create (w : Nat) (env : Env) (builds : List Build)
    (key ns name : String) (image : Image) (b : Build) (m : Int)
    (hback : env.ListsFrom builds)
    (hkey : env.splitMetaNamespaceKey key = Except.ok (ns, name))
    (himg : env.getImage ns name = Except.ok image)
    (hw : w ≤ 64)
    (hr : inRange w image.Status.BuildCounter) (h1 : 1 ≤ image.Status.BuildCounter)
    (hnd : builds.Nodup) (hmem : b ∈ builds)
    (hname : b.Name = image.Status.LastBuildRef)
    (hns : b.Namespace = image.Namespace)
    (hlimg : b.labels.image = some image.Name)
    (hlnum : b.labels.buildNumber = some m)
    (hm64 : inRange 64 m)
    (hgt : image.Status.BuildCounter - 1 < m)
    (honly : ∀ c ∈ builds, c.Namespace = image.Namespace →
      c.labels.image = some image.Name → c = b)
    (hrun : IsRunning (some b) = true) :
    ∀ c ∈ (Reconcile w env key).trace, c.isCreateBuild = false := by
  have hcur := currentBuildNumber_of_pos w image hr h1
  have hn64 : inRange 64 (currentBuildNumber w image) := by
    have h64 := inRange_of_le w _ hw hr
    rw [hcur]
    obtain ⟨h2, h3⟩ := h64
    have hp := half_pos 64
    unfold minInt at h2
    unfold inRange minInt
    constructor <;> omega
  have hlist : env.listBuilds image.Namespace (lastBuildSelector w image) = Except.ok [b] := by
    rw [hback]
    unfold lastBuildSelector
    rw [listFromStore_eq_singleton builds image.Namespace image.Name
      (currentBuildNumber w image) m b hnd hmem hns hlimg hlnum (by omega) hn64 hm64 honly]
  rcases fetchLastBuild_refused_or_accepted w env image with ⟨e, he⟩ | ⟨hv1, hv2⟩
  · rw [reconcile_of_selector_error w env key ns name image e hkey himg (by rw [he]), he]
    intro c hc
    simp only [List.mem_singleton] at hc
    subst hc
    rfl
  · have hsel := fetchLastBuild_of_list w env image [b] hv1 hv2 hlist
    simp only [ne_eq, not_true_eq_false, hname, false_or, if_false] at hsel
    rw [reconcile_of_running w env key ns name image _ b hkey himg hsel hrun]
    intro c hc
    simp only [List.mem_cons, List.mem_singleton, List.not_mem_nil, or_false] at hc
    rcases hc with hc | hc <;> subst hc <;> rfl

/-- C3, witness: `app` with counter 1 and its running Build `app-build-1`
labelled build-number 1. -/
theorem reconcile_in_flight_no_create_witness :
    (Reconcile 64 (storeEnv (appImage "app-build-1" 1) [appBuild "app-build-1" 1 true])
      "ns/app").trace.filter Call.isCreateBuild = [] :=
  List.filter_eq_nil_iff.mpr (fun c hc => by
    simp [reconcile_in_flight_no_create 64
      (storeEnv (appImage "app-build-1" 1) [appBuild "app-build-1" 1 true])
      [appBuild "app-build-1" 1 true] "ns/app" "ns" "app" (appImage "app-build-1" 1)
      (appBuild "app-build-1" 1 true) 1 (fun _ _ => rfl) rfl rfl (by decide) (by decide)
      (by decide) (by decide) (by decide) rfl rfl rfl rfl (by decide) (by decide) (by decide)
      rfl c hc])

/-- C3, counterexample: `app` has counter 1, its `lastBuildRef` names its only
Build `app-build-1`, labelled build-number 0 and image-name `app`, and that Build
is running; the query for build-number above 0 selects nothing, a build is
required when none is selected, and `Reconcile` issues a create call. -/
theorem reconcile_in_flight_counterexample :
    (1 ≤ (appImage "app-build-1" 1).Status.BuildCounter ∧
      (appBuild "app-build-1" 0 true).Name = (appImage "app-build-1" 1).Status.LastBuildRef ∧
      (appBuild "app-build-1" 0 true).labels
        = { buildNumber := some ((appImage "app-build-1" 1).Status.BuildCounter - 1),
            image := some (appImage "app-build-1" 1).Name } ∧
      IsRunning (some (appBuild "app-build-1" 0 true)) = true) ∧
    Call.createBuild "ns" (CreateBuild (appImage "app-build-1" 1) appBuilder) ∈
      (Reconcile 64 (storeEnv (appImage "app-build-1" 1) [appBuild "app-build-1" 0 true])
        "ns/app").trace := by
  decide

/-- C7 (amended): for every Image with `buildCounter = c`, `1 <= c`, `c` below
the greatest value of the counter's integer type, whose only Build in the store
is labelled build-number `c - 1` and image-name the Image's name and is not
running, the selector's query, its requirements being accepted, matches nothing and
`fetchLastBuild` returns absent; when moreover the Builder loads, tracking succeeds, a build is required
with none selected and the create and the status update succeed, `Reconcile`
issues exactly one create, of the Build constructed from counter value `c`, and
submits a status with `buildCounter = c + 1` and `lastBuildRef` the name of the
created Build. -/
theorem reconcile_off_by_one_creates (w : Nat) (env : Env) (builds : List Build)
    (key ns name : String) (image updated : Image) (b created : Build) (builder : Builder)
    (hback : env.ListsFrom builds) (hacc : env.AcceptsRequirements)
    (hkey : env.splitMetaNamespaceKey key = Except.ok (ns, name))
    (himg : env.getImage ns name = Except.ok image)
    (hr : inRange w image.Status.BuildCounter) (h1 : 1 ≤ image.Status.BuildCounter)
    (hmax : image.Status.BuildCounter < maxInt w)
    (hmem : b ∈ builds)
    (hlab : b.labels = { buildNumber := some (image.Status.BuildCounter - 1),
                         image := some image.Name })
    (hnr : IsRunning (some b) = false)
    (honly : ∀ c ∈ builds, c.Namespace = image.Namespace →
      c.labels.image = some image.Name → c = b)
    (hb : env.getBuilder ns image.Spec.BuilderRef = Except.ok builder)
    (ht : env.track builder.Ref image = none)
    (hneed : env.BuildNeeded image none builder = true)
    (hcreate : env.createBuild image.Namespace (CreateBuild image builder)
      = Except.ok created)
    (hupd : env.updateStatus ns
      { image with Status :=
          { LastBuildRef := created.Name,
            BuildCounter := image.Status.BuildCounter + 1,
            ObservedGeneration := image.Generation } } = Except.ok updated) :
    b ∈ builds ∧ IsRunning (some b) = false ∧
    listFromStore builds image.Namespace (lastBuildSelector w image) = [] ∧
    (fetchLastBuild w env image).2 = Except.ok none ∧
    Reconcile w env key =
      { trace := [Call.getImage ns name,
                  Call.listBuilds image.Namespace (lastBuildSelector w image),
                  Call.getBuilder ns image.Spec.BuilderRef,
                  Call.track builder.Ref image,
                  Call.createBuild image.Namespace (CreateBuild image builder),
                  Call.updateStatus ns
                    { image with Status :=
                        { LastBuildRef := created.Name,
                          BuildCounter := image.Status.BuildCounter + 1,
                          ObservedGeneration := image.Generation } }],
        result := Result.nil } ∧
    (CreateBuild image builder).labels.buildNumber = some image.Status.BuildCounter := by
  have hcur := currentBuildNumber_of_pos w image hr h1
  have hnil : listFromStore builds image.Namespace (lastBuildSelector w image) = [] := by
    unfold lastBuildSelector
    apply listFromStore_eq_nil
    intro c hc hcns hcimg
    have := honly c hc hcns hcimg
    subst this
    exact ⟨image.Status.BuildCounter - 1, by rw [hlab], by omega⟩
  have hlist : env.listBuilds image.Namespace (lastBuildSelector w image) = Except.ok [] := by
    rw [hback, hnil]
  have hsel := fetchLastBuild_of_list w env image [] (hacc _) (hacc _) hlist
  simp only at hsel
  have hw : wrap w (image.Status.BuildCounter + 1) = image.Status.BuildCounter + 1 := by
    apply wrap_of_inRange
    obtain ⟨h2, h3⟩ := hr
    constructor <;> omega
  refine ⟨hmem, hnr, hnil, by rw [hsel], ?_, rfl⟩
  unfold Reconcile
  simp only [hkey, himg, hsel, IsRunning, Bool.false_eq_true, if_false, hb, ht, hneed, if_true,
    hcreate, finish, recordBuild, incrementBuildCounter, hw, hupd]
  rfl

/-- C7, witness: Image `app` in `ns` with counter 1 and `lastBuildRef`
`app-build-1`, whose Build `app-build-1` is labelled build-number 0; the Build
`app-build-2` is created from counter value 1 and the status submitted has
counter 2 and `lastBuildRef` `app-build-2`. -/
theorem reconcile_off_by_one_creates_witness :
    Reconcile 64 (storeEnv (appImage "app-build-1" 1) [appBuild "app-build-1" 0 false]) "ns/app"
      = { trace := [Call.getImage "ns" "app",
                    Call.listBuilds "ns" (lastBuildSelector 64 (appImage "app-build-1" 1)),
                    Call.getBuilder "ns" "builder",
                    Call.track appBuilder.Ref (appImage "app-build-1" 1),
                    Call.createBuild "ns" (CreateBuild (appImage "app-build-1" 1) appBuilder),
                    Call.updateStatus "ns"
                      { appImage "app-build-1" 1 with
                        Status := { LastBuildRef := "app-build-2", BuildCounter := 1 + 1,
                                    ObservedGeneration := 1 } }],
          result := Result.nil } :=
  (reconcile_off_by_one_creates 64
    (storeEnv (appImage "app-build-1" 1) [appBuild "app-build-1" 0 false])
    [appBuild "app-build-1" 0 false] "ns/app" "ns" "app" (appImage "app-build-1" 1)
    { appImage "app-build-1" 1 with
      Status := { LastBuildRef := "app-build-2", BuildCounter := 1 + 1,
                  ObservedGeneration := 1 } }
    (appBuild "app-build-1" 0 false)
    { CreateBuild (appImage "app-build-1" 1) appBuilder with Name := "app-build-2" }
    appBuilder (fun _ _ => rfl) (fun _ => rfl) rfl rfl (by decide) (by decide) (by decide)
    (by decide) rfl rfl (by decide) rfl rfl rfl rfl rfl).2.2.2.2.1

/-- C7, counterexample: with `c` the greatest 64-bit (or 32-bit) value, the only
Build labelled `c - 1` and not running, every call succeeding and a build
required with none selected, the status submitted carries the least value of the
type, not `c + 1`. -/
theorem reconcile_off_by_one_overflow_counterexample :
    (Call.updateStatus "ns"
        { appImage "app-build-1" 9223372036854775807 with
          Status := { LastBuildRef := "app-build-2", BuildCounter := -9223372036854775808,
                      ObservedGeneration := 1 } }
      ∈ (Reconcile 64 (storeEnv (appImage "app-build-1" 9223372036854775807)
          [appBuild "app-build-1" 9223372036854775806 false]) "ns/app").trace ∧
      (-9223372036854775808 : Int) ≠ 9223372036854775807 + 1) ∧
    (Call.updateStatus "ns"
        { appImage "app-build-1" 2147483647 with
          Status := { LastBuildRef := "app-build-2", BuildCounter := -2147483648,
                      ObservedGeneration := 1 } }
      ∈ (Reconcile 32 (storeEnv (appImage "app-build-1" 2147483647)
          [appBuild "app-build-1" 2147483646 false]) "ns/app").trace ∧
      (-2147483648 : Int) ≠ 2147483647 + 1) := by
  decide

theorem fetchLastBuild_step (w : Nat) (env : Env) (image : Image) :
    ∀ c ∈ (fetchLastBuild w env image).1, c.step = 1 := by
  intro c hc
  rcases fetchLastBuild_trace w env image with h | h <;> rw [h] at hc <;> simp at hc
  subst hc
  rfl

theorem fetchLastBuild_list_fails (w : Nat) (env : Env) (image : Image) (c : Call) (e : Err)
    (hc : c ∈ (fetchLastBuild w env image).1) (hf : env.Fails c e) :
    (fetchLastBuild w env image).2 = Except.error e := by
  unfold fetchLastBuild at hc ⊢
  simp only at hc ⊢
  split
  · rename_i h; simp [h] at hc
  · rename_i h1
    split
    · rename_i h; simp [h1, h] at hc
    · rename_i h2
      simp only [h1, h2] at hc
      split
      · rename_i err hl
        simp only [hl, List.mem_singleton] at hc
        subst hc
        simp only [Env.Fails, hl, Except.error.injEq] at hf
        simp [hf]
      · rename_i bs hl
        have hc' : c = Call.listBuilds image.Namespace
            [Requirement.buildNumberGreaterThan (currentBuildNumber w image),
             Requirement.imageDoubleEquals image.Name] := by
          simp only [hl] at hc
          split at hc
          · simpa using hc
          · split at hc <;> simpa using hc
        subst hc'
        simp [Env.Fails, hl] at hf

/-- C5: every failure of a sub-step ends the reconcile with that failure and
with no call of a later step.  A key that cannot be split yields its error and
no call; a collaborator call of the trace that fails (an Image lookup failing
other than by not-found, the list, the Builder lookup, the tracker registration,
the create, the status update) is the last step reached and its error is
returned; an error of the Build selector, the status-out-of-sync fault included,
is returned after the Image lookup and the selector's own calls only. -/
theorem reconcile_failure_propagates (w : Nat) (env : Env) (key : String) :
    (∀ e, env.splitMetaNamespaceKey key = Except.error e →
      Reconcile w env key = { trace := [], result := Result.error e }) ∧
    (∀ c e, c ∈ (Reconcile w env key).trace → env.Fails c e →
      (Reconcile w env key).result = Result.error e ∧
      ∀ d ∈ (Reconcile w env key).trace, d.step ≤ c.step) ∧
    (∀ ns name image e, env.splitMetaNamespaceKey key = Except.ok (ns, name) →
      env.getImage ns name = Except.ok image →
      (fetchLastBuild w env image).2 = Except.error e →
      Reconcile w env key =
        { trace := Call.getImage ns name :: (fetchLastBuild w env image).1,
          result := Result.error e } ∧
      ∀ d ∈ (Reconcile w env key).trace, d.step ≤ 1) := by
  refine ⟨?_, ?_, ?_⟩
  · intro e h
    unfold Reconcile
    simp [h]
  · intro c e hc hf
    unfold Reconcile at hc ⊢
    cases hk : env.splitMetaNamespaceKey key with
    | error err => simp [hk] at hc
    | ok p =>
      obtain ⟨ns, name⟩ := p
      simp only [hk] at hc ⊢
      cases hi : env.getImage ns name with
      | error err =>
        simp only [hi] at hc ⊢
        cases hnf : err.isNotFound with
        | true =>
          simp only [hnf, if_true, List.mem_singleton] at hc
          subst hc
          simp only [Env.Fails, hi, Except.error.injEq] at hf
          obtain ⟨h1, h2⟩ := hf
          subst h1
          simp [h2] at hnf
        | false =>
          simp only [hnf, Bool.false_eq_true, if_false, List.mem_singleton] at hc ⊢
          subst hc
          simp only [Env.Fails, hi, Except.error.injEq] at hf
          simp [hf.1]
      | ok image =>
        simp only [hi] at hc ⊢
        have hstep := fetchLastBuild_step w env image
        have hfail := fetchLastBuild_list_fails w env image
        generalize fetchLastBuild w env image = fl at hc hstep hfail ⊢
        obtain ⟨listed, res⟩ := fl
        simp only at hstep hfail
        have hget : ¬ env.Fails (Call.getImage ns name) e := by
          simp [Env.Fails, hi]
        cases res with
        | error err =>
          simp only [List.mem_cons] at hc ⊢
          rcases hc with hc | hc
          · subst hc; exact absurd hf hget
          · have h1 := hfail c e hc hf
            simp only [Except.error.injEq] at h1
            subst h1
            refine ⟨rfl, ?_⟩
            rintro d (hd | hd)
            · subst hd; simp [Call.step]
            · rw [hstep d hd, hstep c hc]
        | ok lastBuild =>
          have hlist : c ∈ listed → False := by
            intro h
            have := hfail c e h hf
            simp at this
          cases hrun : IsRunning lastBuild with
          | true =>
            simp only [hrun, if_true, List.mem_cons] at hc
            rcases hc with hc | hc
            · subst hc; exact absurd hf hget
            · exact absurd hc hlist
          | false =>
            simp only [hrun, Bool.false_eq_true, if_false] at hc ⊢
            cases hb : env.getBuilder ns image.Spec.BuilderRef with
            | error err =>
              simp only [hb, List.mem_cons, List.mem_append, List.mem_singleton,
                List.not_mem_nil, or_false, or_assoc] at hc ⊢
              rcases hc with hc | hc | hc
              · subst hc; exact absurd hf hget
              · exact absurd hc hlist
              · subst hc
                simp only [Env.Fails, hb, Except.error.injEq] at hf
                subst hf
                refine ⟨rfl, ?_⟩
                rintro d (hd | hd | hd)
                · subst hd; simp [Call.step]
                · rw [hstep d hd]; simp [Call.step]
                · subst hd; simp [Call.step]
            | ok builder =>
              simp only [hb] at hc ⊢
              cases ht : env.track builder.Ref image with
              | some err =>
                simp only [ht, List.mem_cons, List.mem_append, List.mem_singleton,
                  List.not_mem_nil, or_false, or_assoc] at hc ⊢
                rcases hc with hc | hc | hc | hc
                · subst hc; exact absurd hf hget
                · exact absurd hc hlist
                · subst hc; simp [Env.Fails, hb] at hf
                · subst hc
                  simp only [Env.Fails, ht, Option.some.injEq] at hf
                  subst hf
                  refine ⟨rfl, ?_⟩
                  rintro d (hd | hd | hd | hd)
                  · subst hd; simp [Call.step]
                  · rw [hstep d hd]; simp [Call.step]
                  · subst hd; simp [Call.step]
                  · subst hd; simp [Call.step]
              | none =>
                simp only [ht] at hc ⊢
                cases hneed : env.BuildNeeded image lastBuild builder with
                | true =>
                  simp only [hneed, if_true] at hc ⊢
                  cases hcr : env.createBuild image.Namespace (CreateBuild image builder) with
                  | error err =>
                    simp only [hcr, List.mem_cons, List.mem_append, List.mem_singleton,
                      List.not_mem_nil, or_false, or_assoc] at hc ⊢
                    rcases hc with hc | hc | hc | hc | hc
                    · subst hc; exact absurd hf hget
                    · exact absurd hc hlist
                    · subst hc; simp [Env.Fails, hb] at hf
                    · subst hc; simp [Env.Fails, ht] at hf
                    · subst hc
                      simp only [Env.Fails, hcr, Except.error.injEq] at hf
                      subst hf
                      refine ⟨rfl, ?_⟩
                      rintro d (hd | hd | hd | hd | hd)
                      · subst hd; simp [Call.step]
                      · rw [hstep d hd]; simp [Call.step]
                      · subst hd; simp [Call.step]
                      · subst hd; simp [Call.step]
                      · subst hd; simp [Call.step]
                  | ok created =>
                    simp only [hcr, finish] at hc ⊢
                    cases hu : env.updateStatus ns
                        (recordBuild (incrementBuildCounter w image) created.Name) with
                    | error err =>
                      simp only [hu, List.mem_cons, List.mem_append, List.mem_singleton,
                        List.not_mem_nil, or_false, or_assoc] at hc ⊢
                      rcases hc with hc | hc | hc | hc | hc | hc
                      · subst hc; exact absurd hf hget
                      · exact absurd hc hlist
                      · subst hc; simp [Env.Fails, hb] at hf
                      · subst hc; simp [Env.Fails, ht] at hf
                      · subst hc; simp [Env.Fails, hcr] at hf
                      · subst hc
                        simp only [Env.Fails, hu, Except.error.injEq] at hf
                        subst hf
                        refine ⟨rfl, ?_⟩
                        rintro d (hd | hd | hd | hd | hd | hd)
                        · subst hd; simp [Call.step]
                        · rw [hstep d hd]; simp [Call.step]
                        · subst hd; simp [Call.step]
                        · subst hd; simp [Call.step]
                        · subst hd; simp [Call.step]
                        · subst hd; simp [Call.step]
                    | ok updated =>
                      simp only [hu, List.mem_cons, List.mem_append, List.mem_singleton,
                        List.not_mem_nil, or_false, or_assoc] at hc ⊢
                      rcases hc with hc | hc | hc | hc | hc | hc
                      · subst hc; exact absurd hf hget
                      · exact absurd hc hlist
                      · subst hc; simp [Env.Fails, hb] at hf
                      · subst hc; simp [Env.Fails, ht] at hf
                      · subst hc; simp [Env.Fails, hcr] at hf
                      · subst hc; simp [Env.Fails, hu] at hf
                | false =>
                  simp only [hneed, Bool.false_eq_true, if_false] at hc ⊢
                  cases lastBuild with
                  | none =>
                    simp only [List.mem_cons, List.mem_append, List.mem_singleton,
                      List.not_mem_nil, or_false, or_assoc] at hc ⊢
                    rcases hc with hc | hc | hc | hc
                    · subst hc; exact absurd hf hget
                    · exact absurd hc hlist
                    · subst hc; simp [Env.Fails, hb] at hf
                    · subst hc; simp [Env.Fails, ht] at hf
                  | some build =>
                    simp only [finish] at hc ⊢
                    cases hu : env.updateStatus ns (recordBuild image build.Name) with
                    | error err =>
                      simp only [hu, List.mem_cons, List.mem_append, List.mem_singleton,
                        List.not_mem_nil, or_false, or_assoc] at hc ⊢
                      rcases hc with hc | hc | hc | hc | hc
                      · subst hc; exact absurd hf hget
                      · exact absurd hc hlist
                      · subst hc; simp [Env.Fails, hb] at hf
                      · subst hc; simp [Env.Fails, ht] at hf
                      · subst hc
                        simp only [Env.Fails, hu, Except.error.injEq] at hf
                        subst hf
                        refine ⟨rfl, ?_⟩
                        rintro d (hd | hd | hd | hd | hd)
                        · subst hd; simp [Call.step]
                        · rw [hstep d hd]; simp [Call.step]
                        · subst hd; simp [Call.step]
                        · subst hd; simp [Call.step]
                        · subst hd; simp [Call.step]
                    | ok updated =>
                      simp only [hu, List.mem_cons, List.mem_append, List.mem_singleton,
                        List.not_mem_nil, or_false, or_assoc] at hc ⊢
                      rcases hc with hc | hc | hc | hc | hc
                      · subst hc; exact absurd hf hget
                      · exact absurd hc hlist
                      · subst hc; simp [Env.Fails, hb] at hf
                      · subst hc; simp [Env.Fails, ht] at hf
                      · subst hc; simp [Env.Fails, hu] at hf
  · intro ns name image e hk hi hfl
    have hstep := fetchLastBuild_step w env image
    have hR := reconcile_of_selector_error w env key ns name image e hk hi hfl
    refine ⟨hR, ?_⟩
    rw [hR]
    intro d hd
    simp only [List.mem_cons] at hd
    rcases hd with hd | hd
    · subst hd; simp [Call.step]
    · rw [hstep d hd]

/-- C5, witness: `lastBuildRef` is `b1` while two Builds labelled build-number 2
match, so the selector's fault is returned after the lookup and the list only;
and a refused create is returned with no status update. -/
theorem reconcile_failure_propagates_witness :
    Reconcile 64 (storeEnv (appImage "b1" 2) [appBuild "b1" 2 false, appBuild "b2" 2 false])
        "ns/app"
      = { trace := Call.getImage "ns" "app" ::
            (fetchLastBuild 64
              (storeEnv (appImage "b1" 2) [appBuild "b1" 2 false, appBuild "b2" 2 false])
              (appImage "b1" 2)).1,
          result := Result.error (statusNotUpToDate (appImage "b1" 2)) } ∧
    (Reconcile 64 (createRefusedEnv (appImage "" 1) []) "ns/app").result
        = Result.error (otherErr "create refused") ∧
    (Reconcile 64 (createRefusedEnv (appImage "" 1) []) "ns/app").trace.filter
        Call.isUpdateStatus = [] :=
  ⟨((reconcile_failure_propagates 64
      (storeEnv (appImage "b1" 2) [appBuild "b1" 2 false, appBuild "b2" 2 false]) "ns/app").2.2
      "ns" "app" (appImage "b1" 2) (statusNotUpToDate (appImage "b1" 2)) rfl rfl rfl).1,
    ((reconcile_failure_propagates 64 (createRefusedEnv (appImage "" 1) []) "ns/app").2.1
      (Call.createBuild "ns" (CreateBuild (appImage "" 1) appBuilder))
      (otherErr "create refused") (by decide) rfl).1,
    List.filter_eq_nil_iff.mpr (fun d hd => by
      have h := ((reconcile_failure_propagates 64 (createRefusedEnv (appImage "" 1) [])
        "ns/app").2.1 (Call.createBuild "ns" (CreateBuild (appImage "" 1) appBuilder))
        (otherErr "create refused") (by decide) rfl).2 d hd
      cases d <;> simp [Call.step, Call.isUpdateStatus] at h ⊢)⟩

end Kpack
